import Mathlib

/-!
Verification development for the Szhimatar2 render orchestration code
(`src-tauri/src/process_manager.rs` and `src-tauri/src/main.rs`).

The Rust code is shallowly embedded: the `ProcessManager` registry becomes a
pure state (association list of process records plus a stop list modelling the
`HashMap`/`HashSet`), process spawning and `wait()` outcomes become explicit
`Except` parameters, and the two stream-reader threads become pure functions
from the list of lines each thread reads to the data it produces.  Mutex
acquisition is modelled as infallible (the embedding is sequential), and
floating-point values (`f64`) are modelled by `Rat`.
-/

/-- Metadata about a rendering process (`RenderProcess` in
`process_manager.rs`).  `started_at` is an abstract timestamp supplied by the
caller in place of `Instant::now()`; paths are plain strings. -/
structure RenderProcess where
  id : String
  started_at : Nat
  input : String
  output : String
  pid : Nat
deriving DecidableEq, Repr

/-- State of the process registry (`ProcessManager` in `process_manager.rs`).
`processes` models the `HashMap<String, RenderProcess>` as an association list
whose first binding for a key is its value; `stopped` models the
`HashSet<String>` as a duplicate-free list. -/
structure ProcessManager where
  processes : List (String × RenderProcess)
  stopped : List String
deriving DecidableEq, Repr

/-- Map lookup on the association list (first binding wins). -/
def lookupJob : List (String × RenderProcess) → String → Option RenderProcess
  | [], _ => none
  | (k, v) :: rest, j => if k = j then some v else lookupJob rest j

/-- Remove the binding for a key (`HashMap::remove`). -/
def eraseJob : List (String × RenderProcess) → String → List (String × RenderProcess)
  | [], _ => []
  | p :: rest, j => if p.1 = j then eraseJob rest j else p :: eraseJob rest j

/-- Insert-or-overwrite a binding (`HashMap::insert`). -/
def insertJob (ps : List (String × RenderProcess)) (j : String)
    (v : RenderProcess) : List (String × RenderProcess) :=
  (j, v) :: eraseJob ps j

/-- Set insertion (`HashSet::insert`). -/
def insertStop (ss : List String) (j : String) : List String :=
  if j ∈ ss then ss else j :: ss

/-- Set removal (`HashSet::remove`). -/
def eraseStop : List String → String → List String
  | [], _ => []
  | s :: rest, j => if s = j then eraseStop rest j else s :: eraseStop rest j

/-- `ProcessManager::new`. -/
def ProcessManager.new : ProcessManager := ⟨[], []⟩

/-- `ProcessManager::spawn_render`.  Building the `Command` and calling
`spawn()` are I/O; the OS outcome is passed in as `os_spawn`, carrying the
child's pid on success (the returned `Child` handle is represented by that
pid).  On spawn failure the error is wrapped and the registry is untouched; on
success the metadata record is stored before the pid is returned. -/
def ProcessManager.spawn_render (m : ProcessManager) (job_id : String)
    (ffmpeg_path input_path output_path : String) (ffmpeg_args : List String)
    (now : Nat) (os_spawn : Except String Nat) :
    Except String Nat × ProcessManager :=
  match os_spawn with
  | .error e => (.error ("Failed to spawn FFmpeg: " ++ e), m)
  | .ok pid =>
      let process : RenderProcess :=
        { id := job_id, started_at := now, input := input_path,
          output := output_path, pid := pid }
      (.ok pid, { m with processes := insertJob m.processes job_id process })

/-- `ProcessManager::stop_render`: marks the job stopped iff a record exists;
the kill itself is done by the caller. -/
def ProcessManager.stop_render (m : ProcessManager) (job_id : String) :
    Bool × ProcessManager :=
  match lookupJob m.processes job_id with
  | some _ => (true, { m with stopped := insertStop m.stopped job_id })
  | none => (false, m)

/-- `ProcessManager::stop_all_renders`: snapshots the key set and calls
`stop_render` on each key, discarding the results. -/
def ProcessManager.stop_all_renders (m : ProcessManager) : ProcessManager :=
  (m.processes.map Prod.fst).foldl (fun acc job_id => (acc.stop_render job_id).2) m

/-- `ProcessManager::remove_process`: removes the record and clears any
stop-flag for the job. -/
def ProcessManager.remove_process (m : ProcessManager) (job_id : String) :
    ProcessManager :=
  { processes := eraseJob m.processes job_id,
    stopped := eraseStop m.stopped job_id }

/-- `ProcessManager::take_stopped`: removes and returns the stop-flag. -/
def ProcessManager.take_stopped (m : ProcessManager) (job_id : String) :
    Bool × ProcessManager :=
  (decide (job_id ∈ m.stopped), { m with stopped := eraseStop m.stopped job_id })

/-- `ProcessManager::has_process`. -/
def ProcessManager.has_process (m : ProcessManager) (job_id : String) : Bool :=
  (lookupJob m.processes job_id).isSome

/-- `ProcessManager::get_pid`. -/
def ProcessManager.get_pid (m : ProcessManager) (job_id : String) : Option Nat :=
  (lookupJob m.processes job_id).map RenderProcess.pid

/-- `ProcessManager::active_jobs`. -/
def ProcessManager.active_jobs (m : ProcessManager) : List String :=
  m.processes.map Prod.fst

/-- `ProcessManager::active_pids`. -/
def ProcessManager.active_pids (m : ProcessManager) : List (String × Nat) :=
  m.processes.map (fun p => (p.1, p.2.pid))

/-- One registry operation, for reasoning about arbitrary operation
sequences.  `spawn` is a spawn that succeeded at the OS level (with the given
pid); `spawnFail` is one the OS refused. -/
inductive Op where
  | spawn (job_id input_path output_path : String) (now pid : Nat)
  | spawnFail (job_id : String) (err : String)
  | stop (job_id : String)
  | stopAll
  | take (job_id : String)
  | remove (job_id : String)
deriving DecidableEq, Repr

/-- Effect of one operation on the registry state. -/
def applyOp (m : ProcessManager) : Op → ProcessManager
  | .spawn job_id input output now pid =>
      (m.spawn_render job_id "ffmpeg" input output [] now (.ok pid)).2
  | .spawnFail job_id e =>
      (m.spawn_render job_id "ffmpeg" "" "" [] 0 (.error e)).2
  | .stop job_id => (m.stop_render job_id).2
  | .stopAll => m.stop_all_renders
  | .take job_id => (m.take_stopped job_id).2
  | .remove job_id => m.remove_process job_id

/-- The registry invariant: every stop-flag belongs to an active job. -/
def stoppedSubset (m : ProcessManager) : Bool :=
  m.stopped.all m.has_process

section RegistryLemmas

theorem eraseJob_cons (p : String × RenderProcess)
    (rest : List (String × RenderProcess)) (j : String) :
    eraseJob (p :: rest) j =
      if p.1 = j then eraseJob rest j else p :: eraseJob rest j := rfl

theorem lookupJob_eraseJob (ps : List (String × RenderProcess)) (j k : String) :
    lookupJob (eraseJob ps j) k = if k = j then none else lookupJob ps k := by
  induction ps with
  | nil => simp [eraseJob, lookupJob]
  | cons p rest ih =>
    obtain ⟨pk, pv⟩ := p
    rw [eraseJob_cons]
    by_cases hpk : pk = j
    · subst hpk
      rw [if_pos rfl, ih]
      by_cases hkj : k = pk
      · simp [hkj]
      · have hkj' : ¬ pk = k := fun h => hkj h.symm
        simp [lookupJob, hkj, hkj']
    · rw [if_neg hpk]
      by_cases hk : pk = k
      · subst hk
        have hkj : ¬ pk = j := hpk
        simp [lookupJob, hkj]
      · simp only [lookupJob, if_neg hk]
        rw [ih]

theorem lookupJob_insertJob (ps : List (String × RenderProcess)) (j k : String)
    (v : RenderProcess) :
    lookupJob (insertJob ps j v) k = if k = j then some v else lookupJob ps k := by
  by_cases hk : k = j
  · subst hk; simp [insertJob, lookupJob]
  · have hk' : ¬ j = k := fun h => hk h.symm
    simp only [insertJob, lookupJob, if_neg hk', lookupJob_eraseJob, if_neg hk]

theorem mem_insertStop (ss : List String) (j k : String) :
    k ∈ insertStop ss j ↔ k = j ∨ k ∈ ss := by
  unfold insertStop
  by_cases hj : j ∈ ss
  · simp only [hj, if_true]
    constructor
    · exact Or.inr
    · rintro (rfl | hk)
      · exact hj
      · exact hk
  · simp [hj, List.mem_cons]

theorem eraseStop_cons (s : String) (rest : List String) (j : String) :
    eraseStop (s :: rest) j =
      if s = j then eraseStop rest j else s :: eraseStop rest j := rfl

theorem mem_eraseStop (ss : List String) (j k : String) :
    k ∈ eraseStop ss j ↔ k ∈ ss ∧ k ≠ j := by
  induction ss with
  | nil => simp [eraseStop]
  | cons s rest ih =>
    rw [eraseStop_cons]
    by_cases hs : s = j
    · subst hs
      rw [if_pos rfl, ih]
      simp only [List.mem_cons]
      constructor
      · rintro ⟨h1, h2⟩; exact ⟨Or.inr h1, h2⟩
      · rintro ⟨h1 | h1, h2⟩
        · exact absurd h1 h2
        · exact ⟨h1, h2⟩
    · rw [if_neg hs]
      simp only [List.mem_cons, ih]
      constructor
      · rintro (rfl | ⟨h1, h2⟩)
        · exact ⟨Or.inl rfl, hs⟩
        · exact ⟨Or.inr h1, h2⟩
      · rintro ⟨rfl | h1, h2⟩
        · exact Or.inl rfl
        · exact Or.inr ⟨h1, h2⟩

/-- The subset invariant, in propositional form. -/
theorem stoppedSubset_iff (m : ProcessManager) :
    stoppedSubset m = true ↔ ∀ j ∈ m.stopped, m.has_process j = true := by
  simp [stoppedSubset, List.all_eq_true]

theorem stoppedSubset_spawn (m : ProcessManager) (job_id fp i o : String)
    (args : List String) (now : Nat) (os : Except String Nat)
    (h : stoppedSubset m = true) :
    stoppedSubset (m.spawn_render job_id fp i o args now os).2 = true := by
  rcases os with e | pid
  · simpa [ProcessManager.spawn_render] using h
  · rw [stoppedSubset_iff] at h ⊢
    intro j hj
    have hj' : m.has_process j = true := h j hj
    simp only [ProcessManager.spawn_render, ProcessManager.has_process,
      lookupJob_insertJob] at hj' ⊢
    by_cases hjid : j = job_id
    · simp [hjid]
    · simpa [hjid] using hj'

theorem stoppedSubset_stop (m : ProcessManager) (job_id : String)
    (h : stoppedSubset m = true) :
    stoppedSubset (m.stop_render job_id).2 = true := by
  rw [stoppedSubset_iff] at h ⊢
  intro j hj
  unfold ProcessManager.stop_render at hj ⊢
  cases hlk : lookupJob m.processes job_id with
  | none => simp only [hlk] at hj ⊢; exact h j hj
  | some v =>
    simp only [hlk] at hj ⊢
    rw [mem_insertStop] at hj
    rcases hj with rfl | hj
    · simp [ProcessManager.has_process, hlk]
    · exact h j hj

theorem stoppedSubset_stopAll (m : ProcessManager)
    (h : stoppedSubset m = true) :
    stoppedSubset m.stop_all_renders = true := by
  unfold ProcessManager.stop_all_renders
  generalize (m.processes.map Prod.fst) = keys
  induction keys generalizing m with
  | nil => simpa using h
  | cons k rest ih =>
    simp only [List.foldl_cons]
    exact ih _ (stoppedSubset_stop m k h)

theorem stoppedSubset_remove (m : ProcessManager) (job_id : String)
    (h : stoppedSubset m = true) :
    stoppedSubset (m.remove_process job_id) = true := by
  rw [stoppedSubset_iff] at h ⊢
  intro j hj
  unfold ProcessManager.remove_process at hj ⊢
  simp only at hj ⊢
  rw [mem_eraseStop] at hj
  have hp := h j hj.1
  simp only [ProcessManager.has_process] at hp ⊢
  rw [lookupJob_eraseJob]
  simpa [hj.2] using hp

theorem stoppedSubset_take (m : ProcessManager) (job_id : String)
    (h : stoppedSubset m = true) :
    stoppedSubset (m.take_stopped job_id).2 = true := by
  rw [stoppedSubset_iff] at h ⊢
  intro j hj
  unfold ProcessManager.take_stopped at hj
  simp only at hj
  rw [mem_eraseStop] at hj
  have := h j hj.1
  simpa [ProcessManager.take_stopped, ProcessManager.has_process] using this

theorem stoppedSubset_applyOp (m : ProcessManager) (op : Op)
    (h : stoppedSubset m = true) :
    stoppedSubset (applyOp m op) = true := by
  cases op with
  | spawn job_id i o now pid => exact stoppedSubset_spawn m job_id "ffmpeg" i o [] now (.ok pid) h
  | spawnFail job_id e => exact stoppedSubset_spawn m job_id "ffmpeg" "" "" [] 0 (.error e) h
  | stop job_id => exact stoppedSubset_stop m job_id h
  | stopAll => exact stoppedSubset_stopAll m h
  | take job_id => exact stoppedSubset_take m job_id h
  | remove job_id => exact stoppedSubset_remove m job_id h

theorem stoppedSubset_foldl (ops : List Op) (m : ProcessManager)
    (h : stoppedSubset m = true) :
    stoppedSubset (ops.foldl applyOp m) = true := by
  induction ops generalizing m with
  | nil => simpa using h
  | cons op rest ih => exact ih _ (stoppedSubset_applyOp m op h)

end RegistryLemmas

/-! String and number parsing helpers used by the embedded render code.
`Rat` stands in for `f64`; the numeric strings the tool emits are plain
decimal notation, on which decimal-rational arithmetic agrees with the
exact values the parser denotes. -/

/-- Does `pat` occur at the start of `cs`? (List-level `starts_with`.) -/
def beginsWith : List Char → List Char → Bool
  | [], _ => true
  | _ :: _, [] => false
  | p :: ps, c :: cs => p = c && beginsWith ps cs

/-- Does `pat` occur anywhere in `hay`? (Rust `str::contains` with a string
pattern.) -/
def containsSub (pat : List Char) : List Char → Bool
  | [] => beginsWith pat []
  | c :: rest => beginsWith pat (c :: rest) || containsSub pat rest

/-- `String` version of `containsSub`. -/
def strContains (s pat : String) : Bool :=
  containsSub pat.toList s.toList

/-- Rust `str::starts_with` with a string pattern. -/
def strStarts (s pat : String) : Bool :=
  beginsWith pat.toList s.toList

/-- ASCII lowercasing, as used for case-insensitive substring talk about the
diagnostic filter. -/
def strToLower (s : String) : String :=
  ⟨s.toList.map Char.toLower⟩

/-- Repeatedly strip a leading occurrence of `pat`
(Rust `str::trim_start_matches` with a string pattern).  `fuel` bounds the
iteration count; `s.length` rounds always suffice because each round removes
at least one character. -/
def trimStartAux (pat : List Char) : Nat → List Char → List Char
  | 0, cs => cs
  | fuel + 1, cs =>
      if pat ≠ [] ∧ beginsWith pat cs then
        trimStartAux pat fuel (cs.drop pat.length)
      else cs

/-- `str::trim_start_matches` with a string pattern. -/
def trimStartMatches (s pat : String) : String :=
  ⟨trimStartAux pat.toList s.length s.toList⟩

/-- `str::trim_end_matches` with a `char` pattern: strip every trailing
occurrence of `c`. -/
def trimEndChar (s : String) (c : Char) : String :=
  ⟨(s.toList.reverse.dropWhile (fun x => x = c)).reverse⟩

/-- Digit run to number. -/
def digitsToNat (ds : List Char) : Nat :=
  ds.foldl (fun n c => n * 10 + (c.toNat - 48)) 0

/-- `u64::from_str`: an optional leading plus sign, then one or more digits,
with 64-bit range enforcement. -/
def parseU64 (s : String) : Option Nat :=
  let cs := match s.toList with
    | '+' :: rest => rest
    | cs => cs
  if cs ≠ [] ∧ cs.all Char.isDigit then
    let v := digitsToNat cs
    if v < 2 ^ 64 then some v else none
  else none

/-- Value of an integer part and a fractional digit run, as an exact
rational: `ip.fp` denotes `(ip * 10^|fp| + fp) / 10^|fp|`. -/
def ratOfParts (ip fp : List Char) : Rat :=
  mkRat (Int.ofNat (digitsToNat ip * 10 ^ fp.length + digitsToNat fp))
    (10 ^ fp.length)

/-- Unsigned decimal number: `digits`, `digits.digits`, `digits.` or
`.digits` (the forms `f64::from_str` accepts for plain decimal notation;
exponent and special-value forms never occur in the tool's output and are
not modelled). -/
def parseUnsignedDec (cs : List Char) : Option Rat :=
  match cs.span (fun c => c ≠ '.') with
  | (ip, []) =>
      if ip ≠ [] ∧ ip.all Char.isDigit then some (digitsToNat ip : Rat) else none
  | (ip, _dot :: fp) =>
      if ¬ fp.contains '.' ∧ (ip ++ fp) ≠ [] ∧ ip.all Char.isDigit ∧
          fp.all Char.isDigit then
        some (ratOfParts ip fp)
      else none

/-- `f64::from_str` on decimal notation, with an optional sign. -/
def parseFloat (s : String) : Option Rat :=
  match s.toList with
  | '-' :: rest => (parseUnsignedDec rest).map (fun q => -q)
  | '+' :: rest => parseUnsignedDec rest
  | cs => parseUnsignedDec cs

/-- The regex class `\s` (ASCII whitespace as it occurs in the tool's
output). -/
def isSpaceChar (c : Char) : Bool :=
  c = ' ' || c = '\t' || c = '\n' || c = '\r' || c = '\x0b' || c = '\x0c'

/-- Strip a literal from the front of the input, or fail. -/
def stripLit : List Char → List Char → Option (List Char)
  | [], cs => some cs
  | _ :: _, [] => none
  | p :: ps, c :: cs => if p = c then stripLit ps cs else none

/-- Leftmost-match search: try the pattern matcher at every start position,
from the left (regex `find`/`captures` semantics). -/
def scanFirst {α : Type} (tryAt : List Char → Option α) : List Char → Option α
  | [] => tryAt []
  | c :: rest =>
      match tryAt (c :: rest) with
      | some r => some r
      | none => scanFirst tryAt rest

/-- Match `lit` `\s*` `(cls+)` at the start of the input, optionally requiring
the literal character `after` right after the captured run; returns the
capture.  Because the character classes used below never contain the `after`
character or whitespace digits overlap, greedy matching coincides with the
regex engine's backtracking semantics. -/
def tryCapClass (lit : List Char) (cls : Char → Bool) (after : Option Char)
    (cs : List Char) : Option (List Char) := do
  let r1 ← stripLit lit cs
  let r2 := r1.dropWhile isSpaceChar
  let cap := r2.takeWhile cls
  let rest := r2.dropWhile cls
  if cap = [] then none
  else
    match after with
    | none => some cap
    | some c =>
        match rest with
        | c' :: _ => if c' = c then some cap else none
        | [] => none

/-- Match `time=(\d+):(\d+):(\d+\.?\d*)` at the start of the input; returns
the three captures (the seconds capture keeps its fractional part). -/
def tryTimeAt (cs : List Char) : Option (List Char × List Char × List Char) := do
  let r1 ← stripLit "time=".toList cs
  let h := r1.takeWhile Char.isDigit
  let r2 := r1.dropWhile Char.isDigit
  if h = [] then none
  else
    match r2 with
    | ':' :: r3 =>
        let mi := r3.takeWhile Char.isDigit
        let r4 := r3.dropWhile Char.isDigit
        if mi = [] then none
        else
          match r4 with
          | ':' :: r5 =>
              let sInt := r5.takeWhile Char.isDigit
              let r6 := r5.dropWhile Char.isDigit
              if sInt = [] then none
              else
                match r6 with
                | '.' :: r7 => some (h, mi, sInt ++ '.' :: r7.takeWhile Char.isDigit)
                | _ => some (h, mi, sInt)
          | _ => none
    | _ => none

/-- The character class `[\d.]`. -/
def isDigitDot (c : Char) : Bool := c.isDigit || c = '.'

/-- The character class `\S`. -/
def isNonSpace (c : Char) : Bool := ¬ isSpaceChar c

/-- `parse_ffmpeg_progress_line` (`main.rs`): extract metrics from one
traditional status line via the six regexes `frame=\s*(\d+)`,
`fps=\s*([\d.]+)`, `size=\s*(\S+)`, `time=(\d+):(\d+):(\d+\.?\d*)`,
`bitrate=\s*(\S+)` and `speed=\s*([\d.]+)x`.  A missing or unparsable frame
makes the whole parse fail; fps, size, bitrate and speed default to `0` / `""`
when absent; an absent time field yields `0.0` seconds, and a present one is
`hours*3600 + minutes*60 + seconds`.  The result tuple is
`(frame, fps, size, bitrate, time_seconds, speed)`. -/
def parse_ffmpeg_progress_line (line : String) :
    Option (Nat × Rat × String × String × Rat × Rat) := do
  let cs := line.toList
  let frameCap ← scanFirst (tryCapClass "frame=".toList Char.isDigit none) cs
  let frame ← parseU64 ⟨frameCap⟩
  let fps := ((scanFirst (tryCapClass "fps=".toList isDigitDot none) cs).bind
      (fun cap => parseFloat ⟨cap⟩)).getD 0
  let size := ((scanFirst (tryCapClass "size=".toList isNonSpace none) cs).map
      (fun cap => String.mk cap)).getD ""
  let bitrate := ((scanFirst (tryCapClass "bitrate=".toList isNonSpace none) cs).map
      (fun cap => String.mk cap)).getD ""
  let speed := ((scanFirst (tryCapClass "speed=".toList isDigitDot (some 'x')) cs).bind
      (fun cap => parseFloat ⟨cap⟩)).getD 0
  let time_seconds ←
    match scanFirst tryTimeAt cs with
    | some (h, mi, sec) => do
        let hours ← parseFloat ⟨h⟩
        let minutes ← parseFloat ⟨mi⟩
        let seconds ← parseFloat ⟨sec⟩
        pure (hours * 3600 + minutes * 60 + seconds)
    | none => pure (0 : Rat)
  pure (frame, fps, size, bitrate, time_seconds, speed)

/-- `RenderJob` (`main.rs`): immutable input of one render job. -/
structure RenderJob where
  job_id : String
  input_path : String
  output_path : String
  ffmpeg_args : List String
  duration_seconds : Rat
deriving DecidableEq, Repr

/-- `RenderProgress` (`main.rs`): one emitted progress snapshot. -/
structure RenderProgress where
  job_id : String
  frame : Nat
  fps : Rat
  bitrate : String
  total_size : String
  time_seconds : Rat
  speed : Rat
  progress_percent : Rat
  eta_seconds : Rat
deriving DecidableEq, Repr

/-- `RenderResult` (`main.rs`): the terminal outcome of one job. -/
structure RenderResult where
  job_id : String
  success : Bool
  error : Option String
  output_path : String
deriving DecidableEq, Repr

/-- `std::process::ExitStatus`, reduced to the two observations the code
makes: `success()` and `code()` (`None` when killed by a signal). -/
structure ExitStatus where
  success : Bool
  code : Option Int
deriving DecidableEq, Repr

/-- Running state of the stdout reader thread: the latest value seen for each
key of the `-progress pipe:1` channel. -/
structure ProgressAcc where
  current_frame : Nat
  current_fps : Rat
  current_time : Rat
  current_speed : Rat
  current_bitrate : String
  current_size : String
deriving DecidableEq, Repr

/-- Initial running state of the stdout reader thread. -/
def initAcc : ProgressAcc :=
  { current_frame := 0, current_fps := 0, current_time := 0,
    current_speed := 0, current_bitrate := "", current_size := "" }

/-- Snapshot built when a `progress=` sentinel line arrives: the percent is
`(current_time / duration * 100).min(100)` when the duration is positive and
`0` otherwise, and the ETA is `(duration - current_time) / current_speed`
when both the speed and the duration are positive and `0` otherwise. -/
def mkSnapshot (job_id : String) (duration : Rat) (a : ProgressAcc) :
    RenderProgress :=
  let progress_percent :=
    if duration > 0 then min (a.current_time / duration * 100) 100 else 0
  let eta_seconds :=
    if a.current_speed > 0 ∧ duration > 0 then
      (duration - a.current_time) / a.current_speed
    else 0
  { job_id := job_id, frame := a.current_frame, fps := a.current_fps,
    bitrate := a.current_bitrate, total_size := a.current_size,
    time_seconds := a.current_time, speed := a.current_speed,
    progress_percent := progress_percent, eta_seconds := eta_seconds }

/-- One line of the stdout reader thread (`main.rs`, the `stdout_handle`
closure): update the running state from a `key=value` line, or emit a
snapshot on the `progress=` sentinel.  Unrecognized or unparsable lines
leave the state unchanged. -/
def stdoutStep (job_id : String) (duration : Rat) (a : ProgressAcc)
    (line : String) : ProgressAcc × Option RenderProgress :=
  if strStarts line "frame=" then
    match parseU64 (trimStartMatches line "frame=") with
    | some val => ({ a with current_frame := val }, none)
    | none => (a, none)
  else if strStarts line "fps=" then
    match parseFloat (trimStartMatches line "fps=") with
    | some val => ({ a with current_fps := val }, none)
    | none => (a, none)
  else if strStarts line "bitrate=" then
    ({ a with current_bitrate := trimStartMatches line "bitrate=" }, none)
  else if strStarts line "total_size=" then
    ({ a with current_size := trimStartMatches line "total_size=" }, none)
  else if strStarts line "out_time_ms=" then
    match parseFloat (trimStartMatches line "out_time_ms=") with
    | some val => ({ a with current_time := val / 1000000 }, none)
    | none => (a, none)
  else if strStarts line "speed=" then
    match parseFloat (trimEndChar (trimStartMatches line "speed=") 'x') with
    | some val => ({ a with current_speed := val }, none)
    | none => (a, none)
  else if strStarts line "progress=" then
    (a, some (mkSnapshot job_id duration a))
  else
    (a, none)

/-- The stdout reader thread's loop over its remaining lines, collecting the
emitted snapshots in order. -/
def stdoutLoop (job_id : String) (duration : Rat) :
    ProgressAcc → List String → List RenderProgress
  | _, [] => []
  | a, l :: ls =>
      match (stdoutStep job_id duration a l).2 with
      | none => stdoutLoop job_id duration (stdoutStep job_id duration a l).1 ls
      | some p => p :: stdoutLoop job_id duration (stdoutStep job_id duration a l).1 ls

/-- The stdout reader thread (`main.rs`): reads the `-progress pipe:1`
channel and emits `render-progress` snapshots.  Read errors skip the line in
the code (`if let Ok(line)`), so the input is the list of successfully read
lines. -/
def run_stdout_thread (job_id : String) (duration : Rat)
    (lines : List String) : List RenderProgress :=
  stdoutLoop job_id duration initAcc lines

/-- Snapshot built from a parsed traditional status line (`main.rs`, inside
the `stderr_handle` closure), with the same percent/ETA formulas as the
stdout reader. -/
def mkStderrSnapshot (job_id : String) (duration : Rat) (frame : Nat)
    (fps : Rat) (size bitrate : String) (time speed : Rat) : RenderProgress :=
  let progress_percent :=
    if duration > 0 then min (time / duration * 100) 100 else 0
  let eta_seconds :=
    if speed > 0 ∧ duration > 0 then (duration - time) / speed else 0
  { job_id := job_id, frame := frame, fps := fps, bitrate := bitrate,
    total_size := size, time_seconds := time, speed := speed,
    progress_percent := progress_percent, eta_seconds := eta_seconds }

/-- Fallback-progress emission for one stderr line (`main.rs`, inside the
`stderr_handle` closure): when the line contains both `frame=` and `time=`
and parses, build the fallback snapshot. -/
def stderrEmit (job_id : String) (duration : Rat) (line : String) :
    Option RenderProgress :=
  if strContains line "frame=" && strContains line "time=" then
    match parse_ffmpeg_progress_line line with
    | some (frame, fps, size, bitrate, time, speed) =>
        some (mkStderrSnapshot job_id duration frame fps size bitrate time speed)
    | none => none
  else none

/-- The stderr reader thread (`main.rs`, the `stderr_handle` closure): for
each line, emit a fallback progress snapshot when the line contains both
`frame=` and `time=` and parses, and collect the line as a diagnostic when it
contains `Error`, `error` or `Invalid`.  Returns the emitted snapshots and
the collected diagnostic lines, each in reading order. -/
def run_stderr_thread (job_id : String) (duration : Rat) :
    List String → List RenderProgress × List String
  | [] => ([], [])
  | line :: ls =>
      let rest := run_stderr_thread job_id duration ls
      let collected : Bool :=
        strContains line "Error" || strContains line "error" ||
          strContains line "Invalid"
      ((match stderrEmit job_id duration line with
        | some p => p :: rest.1
        | none => rest.1),
       (if collected then line :: rest.2 else rest.2))

/-- Rust's `Debug` rendering of `Option<i32>`, as used by
`format!("FFmpeg exited with code: {:?}", status.code())`. -/
def debugFmtCode : Option Int → String
  | some n => "Some(" ++ toString n ++ ")"
  | none => "None"

/-- Outcome classification at the end of `run_ffmpeg_render` (`main.rs`,
after `wait()` succeeded): user stop beats everything; then exit-status
success; then joined diagnostics; then a generic exit-code message. -/
def classify_render_result (job : RenderJob) (was_stopped : Bool)
    (status : ExitStatus) (errors : List String) : RenderResult :=
  if was_stopped then
    { job_id := job.job_id, success := false, error := some "stopped",
      output_path := job.output_path }
  else if status.success then
    { job_id := job.job_id, success := true, error := none,
      output_path := job.output_path }
  else
    let error_msg :=
      if errors.isEmpty then
        "FFmpeg exited with code: " ++ debugFmtCode status.code
      else
        String.intercalate "\n" errors
    { job_id := job.job_id, success := false, error := some error_msg,
      output_path := job.output_path }

/-- The environment of one `run_ffmpeg_render` execution: the configured
tool path, and the outcomes of the I/O the function performs — the OS spawn
(pid on success), the `wait()` call, and the lines each reader thread gets
from its pipe.  Mutex locking is modelled as infallible, and the
stdout/stderr pipe handles always exist because both streams are spawned
with `Stdio::piped()`. -/
structure RunEnv where
  ffmpeg_path : String
  os_spawn : Except String Nat
  wait_result : Except String ExitStatus
  stdout_lines : List String
  stderr_lines : List String
  now : Nat
deriving Repr

/-- `run_ffmpeg_render` (`main.rs`): spawn through the registry, run both
reader threads, wait for the process, consume the stop flag, clean up the
registry entry and classify the outcome.  Returns the command's
`Result<RenderResult, String>` together with the final registry state.
Note the code applies `?` to `child.wait()` *before* the cleanup block, so a
`wait()` error returns early with the registry entry still present. -/
def run_ffmpeg_render (m : ProcessManager) (job : RenderJob) (env : RunEnv) :
    Except String RenderResult × ProcessManager :=
  if env.ffmpeg_path = "" then
    (.error "FFmpeg path not configured", m)
  else
    match m.spawn_render job.job_id env.ffmpeg_path job.input_path
        job.output_path job.ffmpeg_args env.now env.os_spawn with
    | (.error e, m1) => (.error ("Failed to spawn render: " ++ e), m1)
    | (.ok _pid, m1) =>
        match env.wait_result with
        | .error e => (.error ("FFmpeg process error: " ++ e), m1)
        | .ok status =>
            let taken := m1.take_stopped job.job_id
            let was_stopped := taken.1
            let m2 := taken.2
            let errors := (run_stderr_thread job.job_id job.duration_seconds
                env.stderr_lines).2
            let m3 := m2.remove_process job.job_id
            (.ok (classify_render_result job was_stopped status errors), m3)

/-- `stop_ffmpeg_render` (`main.rs`): mark the job stopped in the registry
and kill it by pid.  Returns `((found, kill_issued), state)`: when the job is
unknown the command answers `found = false` and issues no kill; otherwise the
pid is looked up and the OS kill command is issued for it (fire and
forget). -/
def stop_ffmpeg_render (m : ProcessManager) (job_id : String) :
    (Bool × Bool) × ProcessManager :=
  let res := m.stop_render job_id
  let marked := res.1
  let m1 := res.2
  if marked then
    match m1.get_pid job_id with
    | some _ => ((true, true), m1)
    | none => ((true, false), m1)
  else
    ((false, false), m1)

/-- The spec's reading of the diagnostic filter, for comparison with the
code: collect a line iff it contains `error` or `invalid` case-insensitively. -/
def spec_collects_error_line (line : String) : Bool :=
  strContains (strToLower line) "error" || strContains (strToLower line) "invalid"

/-- The code's diagnostic filter in `run_ffmpeg_render`'s stderr thread. -/
def code_collects_error_line (line : String) : Bool :=
  strContains line "Error" || strContains line "error" ||
    strContains line "Invalid"

/-- The percent/ETA contract of an emitted snapshot, phrased on the
snapshot's own fields. -/
def snapshotSpec (duration : Rat) (p : RenderProgress) : Prop :=
  p.progress_percent =
    (if duration > 0 then min 100 (p.time_seconds / duration * 100) else 0) ∧
  p.eta_seconds =
    (if p.speed > 0 ∧ duration > 0 then (duration - p.time_seconds) / p.speed
     else 0)

section ThreadLemmas

theorem snapshotSpec_mkSnapshot (job_id : String) (duration : Rat)
    (a : ProgressAcc) : snapshotSpec duration (mkSnapshot job_id duration a) := by
  unfold snapshotSpec mkSnapshot
  constructor
  · by_cases hd : duration > 0
    · simp only [hd, if_true, min_comm]
    · simp only [hd, if_false]
  · rfl

theorem stdoutStep_snd (job_id : String) (duration : Rat) (a : ProgressAcc)
    (line : String) (p : RenderProgress)
    (h : (stdoutStep job_id duration a line).2 = some p) :
    p = mkSnapshot job_id duration a := by
  unfold stdoutStep at h
  repeat' split at h
  all_goals first
    | exact Option.noConfusion h
    | exact (Option.some.inj h).symm

theorem stdoutLoop_cons (job_id : String) (duration : Rat) (a : ProgressAcc)
    (l : String) (ls : List String) :
    stdoutLoop job_id duration a (l :: ls) =
      match (stdoutStep job_id duration a l).2 with
      | none => stdoutLoop job_id duration (stdoutStep job_id duration a l).1 ls
      | some p =>
          p :: stdoutLoop job_id duration (stdoutStep job_id duration a l).1 ls := by
  simp only [stdoutLoop]

theorem stdoutLoop_snapshotSpec (job_id : String) (duration : Rat)
    (lines : List String) (a : ProgressAcc) (p : RenderProgress)
    (h : p ∈ stdoutLoop job_id duration a lines) : snapshotSpec duration p := by
  induction lines generalizing a with
  | nil => simp [stdoutLoop] at h
  | cons l ls ih =>
    rw [stdoutLoop_cons] at h
    cases hs : (stdoutStep job_id duration a l).2 with
    | none =>
      rw [hs] at h
      exact ih _ h
    | some q =>
      rw [hs] at h
      rcases List.mem_cons.mp h with rfl | h2
      · rw [stdoutStep_snd job_id duration a l p hs]
        exact snapshotSpec_mkSnapshot job_id duration a
      · exact ih _ h2

theorem snapshotSpec_mkStderrSnapshot (job_id : String) (duration : Rat)
    (frame : Nat) (fps : Rat) (size bitrate : String) (time speed : Rat) :
    snapshotSpec duration
      (mkStderrSnapshot job_id duration frame fps size bitrate time speed) := by
  unfold snapshotSpec mkStderrSnapshot
  constructor
  · by_cases hd : duration > 0
    · simp only [hd, if_true, min_comm]
    · simp only [hd, if_false]
  · rfl

theorem stderrEmit_snapshotSpec (job_id : String) (duration : Rat)
    (line : String) (p : RenderProgress)
    (h : stderrEmit job_id duration line = some p) : snapshotSpec duration p := by
  unfold stderrEmit at h
  repeat' split at h
  all_goals first
    | exact Option.noConfusion h
    | (obtain rfl := (Option.some.inj h).symm
       exact snapshotSpec_mkStderrSnapshot job_id duration _ _ _ _ _ _)

theorem run_stderr_thread_cons (job_id : String) (duration : Rat) (l : String)
    (ls : List String) :
    run_stderr_thread job_id duration (l :: ls) =
      ((match stderrEmit job_id duration l with
        | some p => p :: (run_stderr_thread job_id duration ls).1
        | none => (run_stderr_thread job_id duration ls).1),
       (if strContains l "Error" || strContains l "error" ||
            strContains l "Invalid" then
          l :: (run_stderr_thread job_id duration ls).2
        else (run_stderr_thread job_id duration ls).2)) := by
  simp only [run_stderr_thread]

theorem run_stderr_thread_fst_spec (job_id : String) (duration : Rat)
    (lines : List String) (p : RenderProgress)
    (h : p ∈ (run_stderr_thread job_id duration lines).1) :
    snapshotSpec duration p := by
  induction lines with
  | nil => simp [run_stderr_thread] at h
  | cons l ls ih =>
    rw [run_stderr_thread_cons] at h
    cases hs : stderrEmit job_id duration l with
    | none =>
      rw [hs] at h
      exact ih h
    | some q =>
      rw [hs] at h
      rcases List.mem_cons.mp h with rfl | h2
      · exact stderrEmit_snapshotSpec job_id duration l p hs
      · exact ih h2

end ThreadLemmas

section StopFlagLemmas

theorem notStopped_applyOp (m : ProcessManager) (j : String) (op : Op)
    (h : j ∉ m.stopped) (h1 : op ≠ Op.stop j) (h2 : op ≠ Op.stopAll) :
    j ∉ (applyOp m op).stopped := by
  cases op with
  | spawn job_id i o now pid => simpa [applyOp, ProcessManager.spawn_render] using h
  | spawnFail job_id e => simpa [applyOp, ProcessManager.spawn_render] using h
  | stop job_id =>
    have hne : job_id ≠ j := by
      intro hjj; exact h1 (by rw [hjj])
    simp only [applyOp]
    unfold ProcessManager.stop_render
    cases hl : lookupJob m.processes job_id with
    | none => simpa using h
    | some v =>
      simp only
      intro hmem
      rcases (mem_insertStop m.stopped job_id j).mp hmem with rfl | hmem2
      · exact hne rfl
      · exact h hmem2
  | stopAll => exact absurd rfl h2
  | take job_id =>
    simp only [applyOp]
    unfold ProcessManager.take_stopped
    intro hmem
    exact h ((mem_eraseStop m.stopped job_id j).mp hmem).1
  | remove job_id =>
    simp only [applyOp]
    unfold ProcessManager.remove_process
    intro hmem
    exact h ((mem_eraseStop m.stopped job_id j).mp hmem).1

theorem notStopped_foldl (ops : List Op) (m : ProcessManager) (j : String)
    (h : j ∉ m.stopped)
    (hops : ∀ op ∈ ops, op ≠ Op.stop j ∧ op ≠ Op.stopAll) :
    j ∉ (ops.foldl applyOp m).stopped := by
  induction ops generalizing m with
  | nil => simpa using h
  | cons op rest ih =>
    simp only [List.foldl_cons]
    have hop := hops op (List.mem_cons_self op rest)
    exact ih _ (notStopped_applyOp m j op h hop.1 hop.2)
      (fun o ho => hops o (List.mem_cons_of_mem op ho))

end StopFlagLemmas

section ClassifyLemmas

theorem classify_render_result_cases (job : RenderJob) (ws : Bool)
    (status : ExitStatus) (errs : List String) :
    ((classify_render_result job ws status errs).job_id = job.job_id) ∧
    ((classify_render_result job ws status errs).output_path = job.output_path) ∧
    (ws = true →
      (classify_render_result job ws status errs).success = false ∧
      (classify_render_result job ws status errs).error = some "stopped") ∧
    (ws = false → status.success = true →
      (classify_render_result job ws status errs).success = true ∧
      (classify_render_result job ws status errs).error = none) ∧
    (ws = false → status.success = false → errs ≠ [] →
      (classify_render_result job ws status errs).success = false ∧
      (classify_render_result job ws status errs).error =
        some (String.intercalate "\n" errs)) ∧
    (ws = false → status.success = false → errs = [] →
      (classify_render_result job ws status errs).success = false ∧
      (classify_render_result job ws status errs).error =
        some ("FFmpeg exited with code: " ++ debugFmtCode status.code)) := by
  cases ws <;> cases hst : status.success <;> cases errs <;>
    simp [classify_render_result, hst]

theorem run_ffmpeg_render_ok (m : ProcessManager) (job : RenderJob)
    (env : RunEnv) (pid : Nat) (status : ExitStatus)
    (hp : env.ffmpeg_path ≠ "") (hs : env.os_spawn = Except.ok pid)
    (hw : env.wait_result = Except.ok status) :
    (run_ffmpeg_render m job env).1 =
      Except.ok (classify_render_result job
        (((m.spawn_render job.job_id env.ffmpeg_path job.input_path
            job.output_path job.ffmpeg_args env.now env.os_spawn).2.take_stopped
            job.job_id).1)
        status
        ((run_stderr_thread job.job_id job.duration_seconds
            env.stderr_lines).2)) := by
  unfold run_ffmpeg_render
  rw [if_neg hp, hs, hw]
  simp only [ProcessManager.spawn_render]

end ClassifyLemmas

/-- C5: starting from the empty registry, after any sequence of operations
the stopped set only holds active job ids; moreover `stop_render` inserts
into the stopped set only when a record exists, and `remove_process` clears
both the record and the stop-flag, so no orphaned flag survives removal. -/
theorem registry_stopped_subset_invariant :
    (∀ ops : List Op,
        stoppedSubset (ops.foldl applyOp ProcessManager.new) = true) ∧
    (∀ (m : ProcessManager) (j : String),
        (m.stop_render j).2.stopped =
          if m.has_process j then insertStop m.stopped j else m.stopped) ∧
    (∀ (m : ProcessManager) (j : String),
        (m.remove_process j).has_process j = false ∧
        decide (j ∈ (m.remove_process j).stopped) = false) := by
  refine ⟨?_, ?_, ?_⟩
  · intro ops
    exact stoppedSubset_foldl ops ProcessManager.new rfl
  · intro m j
    unfold ProcessManager.stop_render ProcessManager.has_process
    cases h : lookupJob m.processes j <;> simp [h]
  · intro m j
    constructor
    · unfold ProcessManager.remove_process ProcessManager.has_process
      simp [lookupJob_eraseJob]
    · rw [decide_eq_false_iff_not]
      unfold ProcessManager.remove_process
      intro hmem
      exact ((mem_eraseStop m.stopped j j).mp hmem).2 rfl

/-- C6: for a job with an active record, `stop_render` returns true, the
first following `take_stopped` returns true, and every further
`take_stopped` returns false across any sequence of registry operations
that contains no new `stop_render` for that job (`stopAll` is excluded as
well, since it issues `stop_render` for every active job). -/
theorem stop_take_stopped_one_shot (m : ProcessManager) (j : String)
    (h : m.has_process j = true) :
    (m.stop_render j).1 = true ∧
    ((m.stop_render j).2.take_stopped j).1 = true ∧
    (∀ ops : List Op, (∀ op ∈ ops, op ≠ Op.stop j ∧ op ≠ Op.stopAll) →
      ((ops.foldl applyOp
          ((m.stop_render j).2.take_stopped j).2).take_stopped j).1 = false) := by
  unfold ProcessManager.has_process at h
  cases hl : lookupJob m.processes j with
  | none => rw [hl] at h; simp at h
  | some v =>
    refine ⟨?_, ?_, ?_⟩
    · unfold ProcessManager.stop_render
      rw [hl]
    · unfold ProcessManager.stop_render
      rw [hl]
      unfold ProcessManager.take_stopped
      simp only [decide_eq_true_eq]
      exact (mem_insertStop m.stopped j j).mpr (Or.inl rfl)
    · intro ops hops
      have hnot : j ∉ ((m.stop_render j).2.take_stopped j).2.stopped := by
        unfold ProcessManager.stop_render
        rw [hl]
        unfold ProcessManager.take_stopped
        intro hmem
        exact ((mem_eraseStop _ j j).mp hmem).2 rfl
      have := notStopped_foldl ops _ j hnot hops
      unfold ProcessManager.take_stopped
      simpa using this

/-- C6 witness: a concrete registry with job "a" active, stopped once,
consumed once; a later `take_stopped` after an unrelated operation
returns false. -/
theorem stop_take_stopped_one_shot_witness :
    (ProcessManager.mk [("a", ⟨"a", 0, "i.mp4", "o.mp4", 7⟩)] []).has_process
        "a" = true ∧
    ((([Op.take "a", Op.stop "b"]).foldl applyOp
        (((ProcessManager.mk [("a", ⟨"a", 0, "i.mp4", "o.mp4", 7⟩)]
            []).stop_render "a").2.take_stopped "a").2).take_stopped "a").1 =
      false :=
  ⟨by decide,
   (stop_take_stopped_one_shot
      (ProcessManager.mk [("a", ⟨"a", 0, "i.mp4", "o.mp4", 7⟩)] []) "a"
      (by decide)).2.2 [Op.take "a", Op.stop "b"] (by decide)⟩

/-- C7: stopping an unknown job returns false and leaves the registry
untouched, and the `stop_ffmpeg_render` command then answers
`found = false` without issuing a kill. -/
theorem stop_render_unknown_job_noop (m : ProcessManager) (j : String)
    (h : m.has_process j = false) :
    m.stop_render j = (false, m) ∧
    stop_ffmpeg_render m j = ((false, false), m) := by
  unfold ProcessManager.has_process at h
  cases hl : lookupJob m.processes j with
  | some v => rw [hl] at h; simp at h
  | none =>
    have h1 : m.stop_render j = (false, m) := by
      unfold ProcessManager.stop_render
      rw [hl]
    refine ⟨h1, ?_⟩
    unfold stop_ffmpeg_render
    rw [h1]
    rfl

/-- C7 witness: the empty registry knows no job "job-404". -/
theorem stop_render_unknown_job_noop_witness :
    ProcessManager.new.has_process "job-404" = false ∧
    stop_ffmpeg_render ProcessManager.new "job-404" =
      ((false, false), ProcessManager.new) :=
  ⟨by decide,
   (stop_render_unknown_job_noop ProcessManager.new "job-404" (by decide)).2⟩

/-- C8: `spawn_render` creates a registry entry iff the OS spawn succeeds:
a failed spawn returns the wrapped descriptive error with the registry state
unchanged, and a successful spawn returns the pid with the record (carrying
that pid) already registered. -/
theorem spawn_render_registers_iff_spawn_succeeds (m : ProcessManager)
    (j fp i o : String) (args : List String) (now : Nat) :
    (∀ e : String,
        m.spawn_render j fp i o args now (.error e) =
          (.error ("Failed to spawn FFmpeg: " ++ e), m)) ∧
    (∀ pid : Nat,
        (m.spawn_render j fp i o args now (.ok pid)).1 = .ok pid ∧
        (m.spawn_render j fp i o args now (.ok pid)).2.has_process j = true ∧
        (m.spawn_render j fp i o args now (.ok pid)).2.get_pid j = some pid) := by
  constructor
  · intro e; rfl
  · intro pid
    refine ⟨rfl, ?_, ?_⟩
    · simp [ProcessManager.spawn_render, ProcessManager.has_process,
        lookupJob_insertJob]
    · simp [ProcessManager.spawn_render, ProcessManager.get_pid,
        lookupJob_insertJob]

/-- C10: `spawn_render` never touches the stopped set, so respawning a job
id that is active and still marked stopped overwrites the record but keeps
the stale flag, and the next `take_stopped` reports true for the new
incarnation. -/
theorem spawn_render_preserves_stopped_flag (m : ProcessManager)
    (j fp i o : String) (args : List String) (now pid : Nat)
    (h1 : m.has_process j = true) (h2 : j ∈ m.stopped) :
    (∀ os : Except String Nat,
        (m.spawn_render j fp i o args now os).2.stopped = m.stopped) ∧
    (m.spawn_render j fp i o args now (.ok pid)).2.get_pid j = some pid ∧
    ((m.spawn_render j fp i o args now (.ok pid)).2.take_stopped j).1 = true := by
  refine ⟨?_, ?_, ?_⟩
  · rintro (e | p) <;> rfl
  · simp [ProcessManager.spawn_render, ProcessManager.get_pid,
      lookupJob_insertJob]
  · unfold ProcessManager.spawn_render ProcessManager.take_stopped
    simpa using h2

/-- C10 witness: job "a" active with pid 7 and marked stopped; respawning
with pid 9 keeps the stale flag, so `take_stopped` answers true. -/
theorem spawn_render_preserves_stopped_flag_witness :
    (ProcessManager.mk [("a", ⟨"a", 0, "i.mp4", "o.mp4", 7⟩)] ["a"]).has_process
        "a" = true ∧
    "a" ∈ (ProcessManager.mk [("a", ⟨"a", 0, "i.mp4", "o.mp4", 7⟩)]
        ["a"]).stopped ∧
    (((ProcessManager.mk [("a", ⟨"a", 0, "i.mp4", "o.mp4", 7⟩)]
        ["a"]).spawn_render "a" "ffmpeg" "i.mp4" "o.mp4" [] 1
        (.ok 9)).2.take_stopped "a").1 = true :=
  ⟨by decide, by decide,
   (spawn_render_preserves_stopped_flag
      (ProcessManager.mk [("a", ⟨"a", 0, "i.mp4", "o.mp4", 7⟩)] ["a"])
      "a" "ffmpeg" "i.mp4" "o.mp4" [] 1 9 (by decide) (by decide)).2.2⟩

unseal Rat.add Rat.mul Rat.sub Rat.inv in
/-- C9: parsing the documented traditional status line yields frame 150,
fps 30, size "1024kB", bitrate "1677.7kbits/s", 5 seconds of media time
(hours*3600 + minutes*60 + seconds) and speed 2.5. -/
theorem parse_ffmpeg_progress_line_example :
    parse_ffmpeg_progress_line
        "frame=  150 fps=30 q=28.0 size=    1024kB time=00:00:05.00 bitrate=1677.7kbits/s speed=2.5x" =
      some (150, 30, "1024kB", "1677.7kbits/s", 5, 5 / 2) := by
  decide

/-- C1: the claim fails on the code.  `run_ffmpeg_render` applies `?` to
`child.wait()` before the cleanup block, so an execution that spawns
successfully and then sees `wait()` fail returns the wait error with the
job's registry entry still present — the entry is leaked, `remove_process`
never runs on that branch. -/
theorem run_ffmpeg_render_leaks_entry_on_wait_error :
    (run_ffmpeg_render ProcessManager.new
        (RenderJob.mk "job-1" "in.mp4" "out.mp4" [] 10)
        (RunEnv.mk "ffmpeg" (Except.ok 4242)
          (Except.error "No child processes (os error 10)") [] [] 0)).1 =
      Except.error "FFmpeg process error: No child processes (os error 10)" ∧
    (run_ffmpeg_render ProcessManager.new
        (RenderJob.mk "job-1" "in.mp4" "out.mp4" [] 10)
        (RunEnv.mk "ffmpeg" (Except.ok 4242)
          (Except.error "No child processes (os error 10)") [] [] 0)).2.has_process
        "job-1" = true := by
  constructor <;> rfl

/-- C2 counterexample: the stderr diagnostic filter is case-sensitive.  The
line "ERROR: invalid data found" contains "error" and "invalid"
case-insensitively, so the claim says it is appended, but the code's
`contains("Error") || contains("error") || contains("Invalid")` check misses
it and the thread collects nothing. -/
theorem stderr_error_filter_not_case_insensitive :
    spec_collects_error_line "ERROR: invalid data found" = true ∧
    code_collects_error_line "ERROR: invalid data found" = false ∧
    (run_stderr_thread "job-1" 10 ["ERROR: invalid data found"]).2 = [] := by
  refine ⟨by decide, by decide, by decide⟩

/-- C2 (amended): a diagnostic line is appended iff it contains "Error",
"error" or "Invalid" as an exact, case-sensitive substring; in particular
"ERROR" and lowercase "invalid" alone are not collected. -/
theorem stderr_error_lines_filter_characterization (job_id : String)
    (duration : Rat) (lines : List String) :
    (run_stderr_thread job_id duration lines).2 =
      lines.filter code_collects_error_line := by
  induction lines with
  | nil => rfl
  | cons l ls ih =>
    rw [run_stderr_thread_cons]
    dsimp only
    rw [List.filter_cons, ih]
    rfl

/-- C3: whenever `wait()` succeeds on a spawned job, the result is
classified in priority order: stop flag consumed → failure with error
"stopped"; else exit success → success with no error; else collected
diagnostics → their newline join; else the generic exit-code message. -/
theorem run_ffmpeg_render_result_classification (m : ProcessManager)
    (job : RenderJob) (env : RunEnv) (pid : Nat) (status : ExitStatus)
    (hp : env.ffmpeg_path ≠ "") (hs : env.os_spawn = Except.ok pid)
    (hw : env.wait_result = Except.ok status) :
    ∃ r : RenderResult,
      (run_ffmpeg_render m job env).1 = Except.ok r ∧
      r.job_id = job.job_id ∧
      r.output_path = job.output_path ∧
      (((m.spawn_render job.job_id env.ffmpeg_path job.input_path
            job.output_path job.ffmpeg_args env.now
            env.os_spawn).2.take_stopped job.job_id).1 = true →
        r.success = false ∧ r.error = some "stopped") ∧
      (((m.spawn_render job.job_id env.ffmpeg_path job.input_path
            job.output_path job.ffmpeg_args env.now
            env.os_spawn).2.take_stopped job.job_id).1 = false →
        status.success = true →
        r.success = true ∧ r.error = none) ∧
      (((m.spawn_render job.job_id env.ffmpeg_path job.input_path
            job.output_path job.ffmpeg_args env.now
            env.os_spawn).2.take_stopped job.job_id).1 = false →
        status.success = false →
        (run_stderr_thread job.job_id job.duration_seconds
            env.stderr_lines).2 ≠ [] →
        r.success = false ∧
        r.error = some (String.intercalate "\n"
          (run_stderr_thread job.job_id job.duration_seconds
            env.stderr_lines).2)) ∧
      (((m.spawn_render job.job_id env.ffmpeg_path job.input_path
            job.output_path job.ffmpeg_args env.now
            env.os_spawn).2.take_stopped job.job_id).1 = false →
        status.success = false →
        (run_stderr_thread job.job_id job.duration_seconds
            env.stderr_lines).2 = [] →
        r.success = false ∧
        r.error = some ("FFmpeg exited with code: " ++
          debugFmtCode status.code)) := by
  have hcases := classify_render_result_cases job
    (((m.spawn_render job.job_id env.ffmpeg_path job.input_path
        job.output_path job.ffmpeg_args env.now
        env.os_spawn).2.take_stopped job.job_id).1)
    status
    ((run_stderr_thread job.job_id job.duration_seconds env.stderr_lines).2)
  exact ⟨_, run_ffmpeg_render_ok m job env pid status hp hs hw,
    hcases.1, hcases.2.1, hcases.2.2.1, hcases.2.2.2.1,
    hcases.2.2.2.2.1, hcases.2.2.2.2.2⟩

/-- C3 witness: a job that spawns with pid 4242, exits with code 1 with one
collected diagnostic line and no stop request is classified as a failure
with that diagnostic as its error text. -/
theorem run_ffmpeg_render_result_classification_witness :
    ∃ r : RenderResult,
      (run_ffmpeg_render ProcessManager.new
          (RenderJob.mk "job-1" "in.mp4" "out.mp4" [] 10)
          (RunEnv.mk "ffmpeg" (Except.ok 4242)
            (Except.ok (ExitStatus.mk false (some 1))) []
            ["Error while decoding"] 0)).1 = Except.ok r ∧
      r.success = false ∧ r.error = some "Error while decoding" := by
  obtain ⟨r, hr, _, _, _, _, h6, _⟩ :=
    run_ffmpeg_render_result_classification ProcessManager.new
      (RenderJob.mk "job-1" "in.mp4" "out.mp4" [] 10)
      (RunEnv.mk "ffmpeg" (Except.ok 4242)
        (Except.ok (ExitStatus.mk false (some 1))) []
        ["Error while decoding"] 0)
      4242 (ExitStatus.mk false (some 1)) (by decide) rfl rfl
  have h := h6 (by decide) rfl (by decide)
  exact ⟨r, hr, h.1, by rw [h.2]; rfl⟩

/-- C4: every snapshot emitted by the stdout reader or by the stderr
fallback reader satisfies the percent formula (clamped at 100, zero for a
nonpositive duration) and the ETA formula (zero unless both speed and
duration are positive), stated on the snapshot's own fields. -/
theorem progress_snapshot_percent_eta (job_id : String) (duration : Rat)
    (stdout_lines stderr_lines : List String) (p : RenderProgress)
    (hp : p ∈ run_stdout_thread job_id duration stdout_lines ∨
          p ∈ (run_stderr_thread job_id duration stderr_lines).1) :
    p.progress_percent =
      (if duration > 0 then min 100 (p.time_seconds / duration * 100) else 0) ∧
    p.eta_seconds =
      (if p.speed > 0 ∧ duration > 0 then (duration - p.time_seconds) / p.speed
       else 0) := by
  rcases hp with hp | hp
  · exact stdoutLoop_snapshotSpec job_id duration stdout_lines initAcc p hp
  · exact run_stderr_thread_fst_spec job_id duration stderr_lines p hp

unseal Rat.add Rat.mul Rat.sub Rat.inv in
/-- C4 witness: with duration 10, the stdout report `out_time_ms=5000000`
at speed 2 yields a snapshot at 50 percent with ETA 2.5 seconds. -/
theorem progress_snapshot_percent_eta_witness :
    ((⟨"j", 0, 0, "", "", 5, 2, 50, 5 / 2⟩ : RenderProgress) ∈
        run_stdout_thread "j" 10
          ["out_time_ms=5000000", "speed=2.0", "progress=continue"] ∨
      (⟨"j", 0, 0, "", "", 5, 2, 50, 5 / 2⟩ : RenderProgress) ∈
        (run_stderr_thread "j" 10 []).1) ∧
    ((⟨"j", 0, 0, "", "", 5, 2, 50, 5 / 2⟩ : RenderProgress).progress_percent =
      (if (10 : Rat) > 0 then
        min 100
          ((⟨"j", 0, 0, "", "", 5, 2, 50, 5 / 2⟩ :
            RenderProgress).time_seconds / 10 * 100)
      else 0) ∧
     (⟨"j", 0, 0, "", "", 5, 2, 50, 5 / 2⟩ : RenderProgress).eta_seconds =
      (if (⟨"j", 0, 0, "", "", 5, 2, 50, 5 / 2⟩ :
            RenderProgress).speed > 0 ∧ (10 : Rat) > 0 then
        (10 - (⟨"j", 0, 0, "", "", 5, 2, 50, 5 / 2⟩ :
            RenderProgress).time_seconds) /
          (⟨"j", 0, 0, "", "", 5, 2, 50, 5 / 2⟩ : RenderProgress).speed
      else 0)) :=
  ⟨Or.inl (by decide),
   progress_snapshot_percent_eta "j" 10
     ["out_time_ms=5000000", "speed=2.0", "progress=continue"] []
     (⟨"j", 0, 0, "", "", 5, 2, 50, 5 / 2⟩ : RenderProgress)
     (Or.inl (by decide))⟩
